import Mathlib

/-!
Verification of the agent session engine in `src-tauri/src/claude.rs`:
the string-truncation utilities, the session history (`ClaudeState`),
the outbound command protocol (`ServiceCommand` and the `send_*` family),
the shutdown discipline (`stop`), and the inbound event translation
(`parse_service_event` and the two stream-reader loops).

Rust strings are modelled at two levels of detail, matching what each
piece of code observes:
* byte-level (`List Nat`, one entry per UTF-8 byte) where the code
  indexes by bytes (`truncate_to_char_boundary`, the preview slice in
  `save_current_session`);
* character-level (`List Char`, or Lean `String` for opaque identifiers)
  everywhere else.
Machine integers stay `Nat`/`Int` with explicit `% 2 ^ 32` where the
source casts.  Fallible code returns `Option`/`Except`; a Rust panic is
modelled as `none`.
-/

namespace Nocur

/-- A byte of a UTF-8 encoded Rust `String`. -/
abbrev Byte := Nat

/-- A UTF-8 continuation byte (`0x80 ≤ b < 0xC0`): a byte that is not the
first byte of an encoded character. -/
def isContinuationByte (b : Byte) : Bool := 128 ≤ b && b < 192

/-- Model of Rust's `str::is_char_boundary` on the byte sequence of a
string: index `0` and the total length are boundaries, an in-range index
is a boundary exactly when the byte there is not a continuation byte,
and an out-of-range index is not a boundary. -/
def isCharBoundary (s : List Byte) (i : Nat) : Bool :=
  if i = 0 ∨ i = s.length then true
  else
    match s[i]? with
    | some b => !isContinuationByte b
    | none => false

/-- The loop of `truncate_to_char_boundary` (claude.rs:16-19):
`let mut end = max_bytes; while end > 0 && !s.is_char_boundary(end) { end -= 1 }`.
Returns the largest char boundary `≤` the argument (or `0`). -/
def boundarySearch (s : List Byte) : Nat → Nat
  | 0 => 0
  | n + 1 => if isCharBoundary s (n + 1) then n + 1 else boundarySearch s n

/-- Model of `truncate_to_char_boundary` (claude.rs:11-21): if the string
fits in `maxBytes` it is returned whole, otherwise it is cut at the
largest character boundary `≤ maxBytes`. -/
def truncate_to_char_boundary (s : List Byte) (maxBytes : Nat) : List Byte :=
  if s.length ≤ maxBytes then s else s.take (boundarySearch s maxBytes)

/-- The three `.` bytes appended by `format!("{}...", ..)`. -/
def ellipsisBytes : List Byte := [46, 46, 46]

/-- Model of the preview computation inside `save_current_session`
(claude.rs:738-744): `if m.len() > 100 { format!("{}...", &m[..100]) } else { m }`.
The byte-index slice `&m[..100]` panics when byte index 100 is not a
character boundary; the panic is modelled as `none`. -/
def previewOfMessage (m : List Byte) : Option (List Byte) :=
  if m.length > 100 then
    if isCharBoundary m 100 then some (m.take 100 ++ ellipsisBytes) else none
  else some m

/-- Model of `SavedSession` (claude.rs:687-693). -/
structure SavedSession where
  session_id : String
  model : Option String
  created_at : Nat
  last_message_preview : Option (List Byte)
deriving DecidableEq, Repr

/-- The part of an active `ClaudeSession` that `ClaudeState` reads:
`get_session_id()` and `get_model()` (claude.rs:322-329).  The model is
kept as its wire identifier (`ClaudeModel::as_str`). -/
structure SessionInfo where
  session_id : String
  model : Option String
deriving DecidableEq, Repr

/-- Model of `ClaudeState` (claude.rs:695-701). -/
structure ClaudeState where
  session : Option SessionInfo
  skills : List String
  model : Option String
  session_history : List SavedSession
deriving DecidableEq, Repr

/-- Model of `ClaudeState::new` (claude.rs:704-711). -/
def ClaudeState.new : ClaudeState :=
  { session := none, skills := [], model := none, session_history := [] }

/-- Model of `ClaudeState::save_current_session` (claude.rs:724-754).
`now` stands for the `SystemTime::now()` timestamp.  The result is
`none` exactly when the preview slice panics (see `previewOfMessage`);
otherwise it is the updated state: nothing happens when no session is
active or the active id is already in history; else the oldest entry is
removed when the history already holds 10, and the new entry is pushed
at the back. -/
def save_current_session (st : ClaudeState) (last_message : Option (List Byte))
    (now : Nat) : Option ClaudeState :=
  match st.session with
  | none => some st
  | some s =>
    if st.session_history.any (fun sv => sv.session_id == s.session_id) then
      some st
    else
      match (match last_message with
             | none => some none
             | some m => (previewOfMessage m).map some : Option (Option (List Byte))) with
      | none => none
      | some pv =>
        let saved : SavedSession :=
          { session_id := s.session_id, model := s.model, created_at := now
            last_message_preview := pv }
        let hist :=
          if st.session_history.length ≥ 10 then st.session_history.drop 1
          else st.session_history
        some { st with session_history := hist ++ [saved] }

/-- Model of `ClaudeState::get_recent_sessions` (claude.rs:757-759):
history reversed, most-recent-first. -/
def get_recent_sessions (st : ClaudeState) : List SavedSession :=
  st.session_history.reverse

/-- Model of `ClaudeState::get_current_session_id` (claude.rs:762-764). -/
def get_current_session_id (st : ClaudeState) : Option String :=
  st.session.map (fun s => s.session_id)

/-- One externally-triggered action on `ClaudeState` that touches the
history: either the caller installs/clears the active session (as
`lib.rs` does when starting or dropping a `ClaudeSession`), or it calls
`save_current_session`. -/
inductive HistAction where
  | setSession (s : Option SessionInfo)
  | saveCurrent (last_message : Option (List Byte)) (now : Nat)
deriving DecidableEq, Repr

/-- Run one `HistAction` (`none` = the save panicked). -/
def histStep (st : ClaudeState) : HistAction → Option ClaudeState
  | .setSession s => some { st with session := s }
  | .saveCurrent m t => save_current_session st m t

/-- Run a list of `HistAction`s from a state. -/
def histRun (st : ClaudeState) : List HistAction → Option ClaudeState
  | [] => some st
  | a :: rest => (histStep st a).bind (fun st1 => histRun st1 rest)

/-- The documented history invariant: at most 10 saved sessions, no
session id twice. -/
def histInvariant (st : ClaudeState) : Prop :=
  st.session_history.length ≤ 10 ∧
    (st.session_history.map (fun sv => sv.session_id)).Nodup

instance (st : ClaudeState) : Decidable (histInvariant st) := by
  unfold histInvariant; infer_instance

/-- UTF-8 bytes of 99 `a` characters followed by one `é` (`0xC3 0xA9`):
101 bytes, and byte index 100 falls inside the two-byte `é`. -/
def panicMessage : List Byte := List.replicate 99 97 ++ [195, 169]

theorem save_preserves_invariant {st st' : ClaudeState}
    {m : Option (List Byte)} {t : Nat} (hinv : histInvariant st)
    (h : save_current_session st m t = some st') : histInvariant st' := by
  obtain ⟨hlen, hnd⟩ := hinv
  unfold save_current_session at h
  split at h
  · cases h; exact ⟨hlen, hnd⟩
  · rename_i s hs
    split at h
    · cases h; exact ⟨hlen, hnd⟩
    · rename_i hnotmem
      split at h
      · exact absurd h (by simp)
      · rename_i pv hpv
        cases h
        have hid : s.session_id ∉ st.session_history.map (fun sv => sv.session_id) := by
          intro hmem
          obtain ⟨sv, hsv, hsveq⟩ := List.mem_map.mp hmem
          exact hnotmem (List.any_eq_true.mpr ⟨sv, hsv, beq_iff_eq.mpr hsveq⟩)
        constructor
        · simp only [List.length_append, List.length_cons, List.length_nil]
          split
          · rename_i h10
            have h10' : st.session_history.length = 10 := le_antisymm hlen h10
            simp [List.length_drop, h10']
          · rename_i h10
            omega
        · simp only [List.map_append, List.map_cons, List.map_nil]
          rw [List.nodup_append]
          refine ⟨?_, List.nodup_singleton _, ?_⟩
          · split
            · rw [List.map_drop]
              exact hnd.sublist (List.drop_sublist 1 _)
            · exact hnd
          · intro x hx hx1
            simp only [List.mem_singleton] at hx1
            subst hx1
            apply hid
            split at hx
            · rw [List.map_drop] at hx
              exact (List.drop_sublist 1 _).mem hx
            · exact hx

theorem histStep_preserves_invariant {st st' : ClaudeState} {a : HistAction}
    (hinv : histInvariant st) (h : histStep st a = some st') : histInvariant st' := by
  cases a with
  | setSession s =>
    cases h
    exact hinv
  | saveCurrent m t => exact save_preserves_invariant hinv h

theorem histRun_preserves_invariant {acts : List HistAction} :
    ∀ {st st' : ClaudeState}, histInvariant st → histRun st acts = some st' →
      histInvariant st' := by
  induction acts with
  | nil =>
    intro st st' hinv h
    cases h
    exact hinv
  | cons a rest ih =>
    intro st st' hinv h
    simp only [histRun, Option.bind_eq_some] at h
    obtain ⟨st1, h1, h2⟩ := h
    exact ih (histStep_preserves_invariant hinv h1) h2

/-- Eleven distinct session ids, each installed as the active session and
then saved. -/
def sessionScript : List HistAction :=
  [.setSession (some ⟨"s01", none⟩), .saveCurrent none 1,
   .setSession (some ⟨"s02", none⟩), .saveCurrent none 2,
   .setSession (some ⟨"s03", none⟩), .saveCurrent none 3,
   .setSession (some ⟨"s04", none⟩), .saveCurrent none 4,
   .setSession (some ⟨"s05", none⟩), .saveCurrent none 5,
   .setSession (some ⟨"s06", none⟩), .saveCurrent none 6,
   .setSession (some ⟨"s07", none⟩), .saveCurrent none 7,
   .setSession (some ⟨"s08", none⟩), .saveCurrent none 8,
   .setSession (some ⟨"s09", none⟩), .saveCurrent none 9,
   .setSession (some ⟨"s10", none⟩), .saveCurrent none 10,
   .setSession (some ⟨"s11", none⟩), .saveCurrent none 11]

/-- C1: the claim fails on the code.  `save_current_session` computes the
preview as `format!("{}...", &m[..100])` without using
`truncate_to_char_boundary`; the byte-index slice `&m[..100]` panics on a
message whose byte 100 falls inside a multi-byte character.  Witnessed
here on 99 `a`s followed by `é`: the message is 101 bytes long, the
preview computation panics (`none`), the whole `save_current_session`
call panics with an active session, while the repository's own
`truncate_to_char_boundary` helper would have truncated it safely at
byte 99. -/
theorem preview_truncation_panics_on_multibyte :
    panicMessage.length = 101 ∧
    previewOfMessage panicMessage = none ∧
    (∀ t, save_current_session
        { ClaudeState.new with session := some ⟨"sid", none⟩ }
        (some panicMessage) t = none) ∧
    truncate_to_char_boundary panicMessage 100 = List.replicate 99 97 :=
  ⟨by decide, by decide, fun _ => rfl, by decide⟩

/-- C2: from any state satisfying the history invariant (and in
particular from the initial empty state), any sequence of session
installs and `save_current_session` calls that does not panic preserves
the invariant: at most 10 entries, no session id twice.  Moreover, after
saving 11 distinct session ids, `get_recent_sessions` returns exactly
the 10 most recent ids, most-recent-first, with the first-saved id
absent (FIFO eviction). -/
theorem history_bound_and_fifo :
    (∀ acts st st', histInvariant st → histRun st acts = some st' →
      histInvariant st') ∧
    (histRun ClaudeState.new sessionScript).map
        (fun st => (get_recent_sessions st).map (fun sv => sv.session_id)) =
      some ["s11", "s10", "s09", "s08", "s07", "s06", "s05", "s04", "s03", "s02"] :=
  ⟨fun _ _ _ hinv h => histRun_preserves_invariant hinv h, by decide⟩

/-- Witness for C2 at a concrete input: installing session `s01` and
saving it, starting from the initial state, yields a state that
satisfies the history invariant. -/
theorem history_bound_and_fifo_witness :
    histInvariant { session := some ⟨"s01", none⟩, skills := [], model := none
                    session_history := [⟨"s01", none, 1, none⟩] } :=
  history_bound_and_fifo.1
    [.setSession (some ⟨"s01", none⟩), .saveCurrent none 1]
    ClaudeState.new
    { session := some ⟨"s01", none⟩, skills := [], model := none
      session_history := [⟨"s01", none, 1, none⟩] }
    (by decide) (by decide)

/-- Saving when the active session id is already in history changes
nothing (the `any` guard in claude.rs:730). -/
theorem save_of_mem {st : ClaudeState} {s : SessionInfo} (hs : st.session = some s)
    (hmem : st.session_history.any (fun sv => sv.session_id == s.session_id) = true)
    (m : Option (List Byte)) (t : Nat) :
    save_current_session st m t = some st := by
  unfold save_current_session
  rw [hs]
  simp [hmem]

/-- C9: `save_current_session` is a no-op when no session is active, and
is idempotent per session id: if a save for the active session id
succeeds, an immediately following save (same active session, any
message) changes nothing, and the history holds exactly one entry for
that id. -/
theorem saveCurrent_noop_and_idempotent :
    (∀ st m t, st.session = none → save_current_session st m t = some st) ∧
    (∀ st s m t st1 m' t', st.session = some s →
      (st.session_history.map (fun sv => sv.session_id)).Nodup →
      save_current_session st m t = some st1 →
      save_current_session st1 m' t' = some st1 ∧
        (st1.session_history.map (fun sv => sv.session_id)).count s.session_id
          = 1) := by
  constructor
  · intro st m t hs
    unfold save_current_session
    rw [hs]
  · intro st s m t st1 m' t' hs hnd h
    unfold save_current_session at h
    split at h
    · rename_i heq
      rw [hs] at heq
      exact absurd heq (by simp)
    · rename_i s1 heq
      rw [hs] at heq
      injection heq with heq'
      subst heq'
      split at h
      · rename_i hmem
        injection h with h'
        subst h'
        have hin : s.session_id ∈ st.session_history.map (fun sv => sv.session_id) := by
          obtain ⟨sv, hsv, hsveq⟩ := List.any_eq_true.mp hmem
          exact List.mem_map.mpr ⟨sv, hsv, beq_iff_eq.mp hsveq⟩
        exact ⟨save_of_mem hs hmem m' t', List.count_eq_one_of_mem hnd hin⟩
      · rename_i hmem
        split at h
        · exact absurd h (by simp)
        · rename_i pv hpv
          injection h with h'
          subst h'
          have hnotin : s.session_id ∉ st.session_history.map (fun sv => sv.session_id) := by
            intro hmem'
            obtain ⟨sv, hsv, hsveq⟩ := List.mem_map.mp hmem'
            exact hmem (List.any_eq_true.mpr ⟨sv, hsv, beq_iff_eq.mpr hsveq⟩)
          constructor
          · apply save_of_mem (s := s)
            · exact hs
            · simp [List.any_append]
          · simp only [List.map_append, List.map_cons, List.map_nil, List.count_append]
            have hz :
                ((if st.session_history.length ≥ 10 then st.session_history.drop 1
                  else st.session_history).map (fun sv => sv.session_id)).count
                  s.session_id = 0 := by
              apply List.count_eq_zero_of_not_mem
              intro hx
              apply hnotin
              split at hx
              · rw [List.map_drop] at hx
                exact (List.drop_sublist 1 _).mem hx
              · exact hx
            rw [hz]
            simp

/-- Witness for C9 at a concrete input: part one on a state with no
active session; part two on a state with active session `s01` and empty
history, saved twice. -/
theorem saveCurrent_noop_and_idempotent_witness :
    save_current_session ClaudeState.new none 0 = some ClaudeState.new ∧
    (save_current_session
        { ClaudeState.new with session := some ⟨"s01", none⟩ } none 1 =
      some { session := some ⟨"s01", none⟩, skills := [], model := none
             session_history := [⟨"s01", none, 1, none⟩] } →
      save_current_session
          { session := some ⟨"s01", none⟩, skills := [], model := none
            session_history := [⟨"s01", none, 1, none⟩] } none 2 =
        some { session := some ⟨"s01", none⟩, skills := [], model := none
               session_history := [⟨"s01", none, 1, none⟩] } ∧
      (([(⟨"s01", none, 1, none⟩ : SavedSession)].map
          (fun sv => sv.session_id)).count "s01") = 1) :=
  ⟨saveCurrent_noop_and_idempotent.1 ClaudeState.new none 0 rfl,
   fun h =>
     saveCurrent_noop_and_idempotent.2
       { ClaudeState.new with session := some ⟨"s01", none⟩ }
       ⟨"s01", none⟩ none 1
       { session := some ⟨"s01", none⟩, skills := [], model := none
         session_history := [⟨"s01", none, 1, none⟩] }
       none 2 rfl (by decide) h⟩

/-- Hex digit table used by the JSON string escaper (`0123456789abcdef`,
indexed by a nibble). -/
def hexDigit : Nat → Char
  | 0 => '0' | 1 => '1' | 2 => '2' | 3 => '3' | 4 => '4' | 5 => '5' | 6 => '6' | 7 => '7'
  | 8 => '8' | 9 => '9' | 10 => 'a' | 11 => 'b' | 12 => 'c' | 13 => 'd' | 14 => 'e'
  | _ => 'f'

/-- JSON string escaping as performed by `serde_json` when the commands
are serialized: `"` and `\` are backslash-escaped, the five control
characters with short forms use them, any other control character
becomes `\u00XX`, and everything else is copied unchanged. -/
def escapeChar (c : Char) : List Char :=
  if c = '"' then ['\\', '"']
  else if c = '\\' then ['\\', '\\']
  else if c = '\x08' then ['\\', 'b']
  else if c = '\t' then ['\\', 't']
  else if c = '\n' then ['\\', 'n']
  else if c = '\x0c' then ['\\', 'f']
  else if c = '\r' then ['\\', 'r']
  else if c.toNat < 32 then
    ['\\', 'u', '0', '0', hexDigit (c.toNat / 16), hexDigit (c.toNat % 16)]
  else [c]

/-- Escape a whole string for inclusion in a JSON string literal. -/
def escapeJson (s : List Char) : List Char := s.flatMap escapeChar

/-- A JSON string literal: quote, escaped body, quote. -/
def jsonStr (s : List Char) : List Char := '"' :: (escapeJson s ++ ['"'])

/-- Serialization of an `Option<String>` field (`serde` writes `null`
for `None`; none of the option fields carry a skip attribute). -/
def jsonOptStr : Option (List Char) → List Char
  | none => "null".toList
  | some s => jsonStr s

/-- Serialization of a `bool` field. -/
def jsonBool : Bool → List Char
  | true => "true".toList
  | false => "false".toList

/-- Model of `ServiceCommand` (claude.rs:97-117). -/
inductive ServiceCommand where
  | start (working_dir : List Char) (model : Option (List Char))
      (resume_session_id : Option (List Char)) (skip_permissions : Bool)
  | message (content : List Char)
  | interrupt
  | changeModel (model : List Char)
  | stop
deriving DecidableEq, Repr

/-- The wire discriminator of each variant under
`#[serde(tag = "type", rename_all = "camelCase")]` (claude.rs:97-98). -/
def commandTag : ServiceCommand → List Char
  | .start _ _ _ _ => "start".toList
  | .message _ => "message".toList
  | .interrupt => "interrupt".toList
  | .changeModel _ => "changeModel".toList
  | .stop => "stop".toList

/-- The serialized fields of each variant, in declaration order, with
the explicit `#[serde(rename = ...)]` names (claude.rs:100-116). -/
def commandFields : ServiceCommand → List Char
  | .start wd mo rs sp =>
      ",\"workingDir\":".toList ++ jsonStr wd ++ ",\"model\":".toList ++ jsonOptStr mo
        ++ ",\"resumeSessionId\":".toList ++ jsonOptStr rs
        ++ ",\"skipPermissions\":".toList ++ jsonBool sp
  | .message c => ",\"content\":".toList ++ jsonStr c
  | .interrupt => []
  | .changeModel mo => ",\"model\":".toList ++ jsonStr mo
  | .stop => []

/-- Model of `serde_json::to_string` on a `ServiceCommand`: an
internally-tagged object whose first member is the `type` tag, followed
by the variant's fields. -/
def serializeCommand (cmd : ServiceCommand) : List Char :=
  "\x7b\"type\":\"".toList ++ commandTag cmd ++ "\"".toList ++ commandFields cmd
    ++ "\x7d".toList

/-- What `writeln!(stdin, "{}", json_line)` puts on the wire: the
serialized command followed by one newline. -/
def writeCommandLine (cmd : ServiceCommand) : List Char :=
  serializeCommand cmd ++ ['\n']

theorem hexDigit_ne_newline (n : Nat) : hexDigit n ≠ '\n' := by
  unfold hexDigit
  split <;> decide

theorem newline_not_mem_escapeChar (c : Char) : '\n' ∉ escapeChar c := by
  unfold escapeChar
  split_ifs with h1 h2 h3 h4 h5 h6 h7 h8
  · decide
  · decide
  · decide
  · decide
  · decide
  · decide
  · decide
  · intro hmem
    simp only [List.mem_cons, List.not_mem_nil, or_false] at hmem
    rcases hmem with h | h | h | h | h | h
    · exact absurd h (by decide)
    · exact absurd h (by decide)
    · exact absurd h (by decide)
    · exact absurd h (by decide)
    · exact hexDigit_ne_newline _ h.symm
    · exact hexDigit_ne_newline _ h.symm
  · intro hmem
    simp only [List.mem_cons, List.not_mem_nil, or_false] at hmem
    exact h5 hmem.symm

theorem newline_not_mem_escapeJson (s : List Char) : '\n' ∉ escapeJson s := by
  intro h
  rw [escapeJson, List.mem_flatMap] at h
  obtain ⟨c, _, hc⟩ := h
  exact newline_not_mem_escapeChar c hc

theorem newline_not_mem_jsonStr (s : List Char) : '\n' ∉ jsonStr s := by
  intro h
  rw [jsonStr] at h
  rcases List.mem_cons.mp h with h | h
  · exact absurd h (by decide)
  · rcases List.mem_append.mp h with h | h
    · exact newline_not_mem_escapeJson s h
    · exact absurd h (by decide)

theorem newline_not_mem_jsonOptStr (s : Option (List Char)) : '\n' ∉ jsonOptStr s := by
  cases s with
  | none => decide
  | some s => exact newline_not_mem_jsonStr s

theorem newline_not_mem_jsonBool (b : Bool) : '\n' ∉ jsonBool b := by
  cases b <;> decide

theorem newline_not_mem_commandFields (cmd : ServiceCommand) :
    '\n' ∉ commandFields cmd := by
  cases cmd with
  | start wd mo rs sp =>
    intro h
    simp only [commandFields, List.append_assoc, List.mem_append] at h
    rcases h with h | h | h | h | h | h | h | h
    · exact absurd h (by decide)
    · exact newline_not_mem_jsonStr wd h
    · exact absurd h (by decide)
    · exact newline_not_mem_jsonOptStr mo h
    · exact absurd h (by decide)
    · exact newline_not_mem_jsonOptStr rs h
    · exact absurd h (by decide)
    · exact newline_not_mem_jsonBool sp h
  | message c =>
    intro h
    simp only [commandFields, List.mem_append] at h
    rcases h with h | h
    · exact absurd h (by decide)
    · exact newline_not_mem_jsonStr c h
  | interrupt => simp [commandFields]
  | changeModel mo =>
    intro h
    simp only [commandFields, List.mem_append] at h
    rcases h with h | h
    · exact absurd h (by decide)
    · exact newline_not_mem_jsonStr mo h
  | stop => simp [commandFields]

theorem newline_not_mem_commandTag (cmd : ServiceCommand) :
    '\n' ∉ commandTag cmd := by
  cases cmd <;> simp only [commandTag] <;> decide

theorem newline_not_mem_serializeCommand (cmd : ServiceCommand) :
    '\n' ∉ serializeCommand cmd := by
  intro h
  simp only [serializeCommand, List.append_assoc, List.mem_append] at h
  rcases h with h | h | h | h | h
  · exact absurd h (by decide)
  · exact newline_not_mem_commandTag cmd h
  · exact absurd h (by decide)
  · exact newline_not_mem_commandFields cmd h
  · exact absurd h (by decide)

/-- Model of `ClaudeEvent` (claude.rs:24-66).  Strings are character
lists; the `u64`/`u32` token and turn counters are `Nat` (the source
only ever stores values produced by `as_u64`, which fit); `cost` and
`duration` are `f64` in the source and are modelled as the integer JSON
numbers the claims exercise. -/
structure ClaudeEvent where
  event_type : List Char
  content : List Char
  tool_name : Option (List Char)
  tool_input : Option (List Char)
  tool_id : Option (List Char)
  is_error : Bool
  raw_json : Option (List Char)
  skills : Option (List (List Char))
  model : Option (List Char)
  session_id : Option (List Char)
  input_tokens : Option Nat
  output_tokens : Option Nat
  cache_read_tokens : Option Nat
  cache_creation_tokens : Option Nat
  cost : Option Int
  duration : Option Int
  num_turns : Option Nat
  progress_step : Option Nat
  progress_total : Option Nat
  progress_message : Option (List Char)
  result_subtype : Option (List Char)
deriving DecidableEq, Repr

/-- Model of `impl Default for ClaudeEvent` (claude.rs:68-94). -/
def ClaudeEvent.default : ClaudeEvent :=
  { event_type := [], content := [], tool_name := none, tool_input := none
    tool_id := none, is_error := false, raw_json := none, skills := none
    model := none, session_id := none, input_tokens := none, output_tokens := none
    cache_read_tokens := none, cache_creation_tokens := none, cost := none
    duration := none, num_turns := none, progress_step := none
    progress_total := none, progress_message := none, result_subtype := none }

/-- Abstract state of the worker's stdin pipe held behind the
`stdin_writer` guard: `ok = false` models a pipe whose writes fail
because the worker process has ended. -/
structure PipeState where
  ok : Bool
deriving DecidableEq, Repr

/-- Observable state of a `ClaudeSession` together with the I/O it has
performed: the two `Arc<Mutex<Option<..>>>` guards (`child` at
claude.rs:163, `stdin_writer` at claude.rs:164), the lines successfully
written and flushed to the worker's stdin, and the events emitted to
the app handle. -/
structure SessionState where
  child : Option Unit
  stdin_writer : Option PipeState
  written : List (List Char)
  emitted : List ClaudeEvent
deriving DecidableEq, Repr

/-- The `message_sent` event built at claude.rs:355-358. -/
def messageSentEvent : ClaudeEvent :=
  { ClaudeEvent.default with event_type := "message_sent".toList }

/-- Model of `ClaudeSession::send_message` (claude.rs:331-364): if the
stdin guard holds a writer, write the serialized `Message` line, flush,
emit a `message_sent` event and return `Ok`; a failing write/flush (the
pipe is broken because the process ended) returns the write error; a
`None` guard returns the "Stdin not available" error.  A failing call
leaves the state unchanged and is not retried. -/
def send_message (st : SessionState) (message : List Char) :
    Except (List Char) Unit × SessionState :=
  match st.stdin_writer with
  | some pipe =>
    if pipe.ok then
      (Except.ok (),
       { st with written := st.written ++ [writeCommandLine (.message message)]
                 emitted := st.emitted ++ [messageSentEvent] })
    else (Except.error "Failed to write to stdin".toList, st)
  | none => (Except.error "Stdin not available - session may have ended".toList, st)

/-- Model of `ClaudeSession::change_model` (claude.rs:366-387). -/
def change_model (st : SessionState) (model : List Char) :
    Except (List Char) Unit × SessionState :=
  match st.stdin_writer with
  | some pipe =>
    if pipe.ok then
      (Except.ok (),
       { st with written := st.written ++ [writeCommandLine (.changeModel model)] })
    else (Except.error "Failed to write to stdin".toList, st)
  | none => (Except.error "Stdin not available".toList, st)

/-- Model of `ClaudeSession::interrupt` (claude.rs:389-408). -/
def interrupt (st : SessionState) : Except (List Char) Unit × SessionState :=
  match st.stdin_writer with
  | some pipe =>
    if pipe.ok then
      (Except.ok (),
       { st with written := st.written ++ [writeCommandLine .interrupt] })
    else (Except.error "Failed to write to stdin".toList, st)
  | none => (Except.error "Stdin not available".toList, st)

/-- Externally visible termination side effects of `stop`. -/
inductive StopEffect where
  | killChild
  | closeStdin
deriving DecidableEq, Repr

/-- Model of `ClaudeSession::stop` (claude.rs:410-429): kill the child
process if the `child` guard holds one and set the guard to `None`,
then drop the stdin writer (closing the pipe) if the `stdin_writer`
guard holds one and set that guard to `None`.  Infallible; returns the
termination side effects actually performed. -/
def stop (st : SessionState) : SessionState × List StopEffect :=
  let killEff : List StopEffect :=
    match st.child with
    | some _ => [.killChild]
    | none => []
  let closeEff : List StopEffect :=
    match st.stdin_writer with
    | some _ => [.closeStdin]
    | none => []
  ({ st with child := none, stdin_writer := none }, killEff ++ closeEff)

/-- The input stream has already been closed: either `stop()` already
ran (the guard holds `None`) or the worker process ended (writes to the
pipe fail). -/
def streamClosed (st : SessionState) : Prop :=
  st.stdin_writer = none ∨ ∃ p, st.stdin_writer = some p ∧ p.ok = false

instance (st : SessionState) : Decidable (streamClosed st) :=
  match h : st.stdin_writer with
  | none => isTrue (Or.inl h)
  | some p =>
    if hp : p.ok then
      isFalse (by
        rintro (h1 | ⟨q, hq, hq2⟩)
        · rw [h] at h1
          exact Option.noConfusion h1
        · rw [h] at hq
          injection hq with e
          subst e
          rw [hp] at hq2
          exact Bool.noConfusion hq2)
    else isTrue (Or.inr ⟨p, h, by simpa using hp⟩)

/-- C3: every `ServiceCommand` becomes exactly one newline-terminated
line: the wire bytes are the JSON body followed by a single newline, the
body itself contains no newline (whatever the payload strings contain,
thanks to JSON escaping), and the body opens with a `type` member whose
value is the variant's camelCase discriminator.  A successful
`send_message` appends exactly that one line to the wire, and
`Message{content:"fix bug"}` serializes to exactly
`{"type":"message","content":"fix bug"}` plus newline. -/
theorem command_serializes_to_one_tagged_line :
    (∀ cmd : ServiceCommand,
      writeCommandLine cmd = serializeCommand cmd ++ ['\n'] ∧
      '\n' ∉ serializeCommand cmd ∧
      ∃ rest, serializeCommand cmd =
        "\x7b\"type\":\"".toList ++ commandTag cmd ++ "\"".toList ++ rest) ∧
    (∀ st m, ¬streamClosed st →
      (send_message st m).2.written = st.written ++ [writeCommandLine (.message m)]) ∧
    writeCommandLine (.message "fix bug".toList) =
      "\x7b\"type\":\"message\",\"content\":\"fix bug\"\x7d\n".toList := by
  refine ⟨fun cmd => ⟨rfl, newline_not_mem_serializeCommand cmd,
    ⟨commandFields cmd ++ "\x7d".toList, by simp [serializeCommand, List.append_assoc]⟩⟩,
    ?_, by decide⟩
  intro st m hopen
  obtain ⟨c, w, wr, em⟩ := st
  cases w with
  | none => exact absurd (Or.inl rfl) hopen
  | some p =>
    obtain ⟨pok⟩ := p
    cases pok
    · exact absurd (Or.inr ⟨⟨false⟩, rfl, rfl⟩) hopen
    · simp [send_message]

/-- Witness for C3 at a concrete input: a fresh open session with an
alive pipe, sending `fix bug`. -/
theorem command_serializes_witness :
    (send_message ⟨some (), some ⟨true⟩, [], []⟩ "fix bug".toList).2.written =
      [] ++ [writeCommandLine (.message "fix bug".toList)] :=
  command_serializes_to_one_tagged_line.2.1 ⟨some (), some ⟨true⟩, [], []⟩
    "fix bug".toList (by decide)

/-- C5: `send_message`, `change_model` and `interrupt` fail exactly when
the input stream has already been closed — the guard holds `None`
because `stop()` already ran, or the pipe is broken because the process
ended.  A failing call leaves the session state unchanged (the write is
never retried); on an open stream the call succeeds after writing and
flushing exactly the one command line; and `stop()` closes the
stream. -/
theorem send_write_error_iff_closed :
    ∀ st m mo,
      ((send_message st m).1 = Except.ok () ↔ ¬streamClosed st) ∧
      ((change_model st mo).1 = Except.ok () ↔ ¬streamClosed st) ∧
      ((interrupt st).1 = Except.ok () ↔ ¬streamClosed st) ∧
      (streamClosed st →
        (send_message st m).2 = st ∧ (change_model st mo).2 = st ∧
          (interrupt st).2 = st) ∧
      (¬streamClosed st →
        (send_message st m).2.written = st.written ++ [writeCommandLine (.message m)] ∧
        (change_model st mo).2.written
          = st.written ++ [writeCommandLine (.changeModel mo)] ∧
        (interrupt st).2.written = st.written ++ [writeCommandLine .interrupt]) ∧
      streamClosed (stop st).1 := by
  intro st m mo
  obtain ⟨c, w, wr, em⟩ := st
  cases w with
  | none =>
    refine ⟨?_, ?_, ?_, ?_, ?_, ?_⟩ <;>
      simp [send_message, change_model, interrupt, streamClosed, stop]
  | some p =>
    obtain ⟨pok⟩ := p
    cases pok <;>
      refine ⟨?_, ?_, ?_, ?_, ?_, ?_⟩ <;>
        simp [send_message, change_model, interrupt, streamClosed, stop]

/-- Witness for C5 at concrete inputs: on an open session the three
sends succeed and write their lines; the same session after `stop()` has
a closed stream. -/
theorem send_write_error_iff_closed_witness :
    ((send_message ⟨some (), some ⟨true⟩, [], []⟩ "hi".toList).2.written =
        [] ++ [writeCommandLine (.message "hi".toList)] ∧
      (change_model ⟨some (), some ⟨true⟩, [], []⟩ "opus".toList).2.written =
        [] ++ [writeCommandLine (.changeModel "opus".toList)] ∧
      (interrupt (⟨some (), some ⟨true⟩, [], []⟩ : SessionState)).2.written =
        [] ++ [writeCommandLine .interrupt]) ∧
    streamClosed (stop ⟨some (), some ⟨true⟩, [], []⟩).1 :=
  ⟨(send_write_error_iff_closed ⟨some (), some ⟨true⟩, [], []⟩ "hi".toList
      "opus".toList).2.2.2.2.1 (by decide),
   (send_write_error_iff_closed ⟨some (), some ⟨true⟩, [], []⟩ "hi".toList
      "opus".toList).2.2.2.2.2⟩

/-- C6: `stop()` is idempotent: a second call changes nothing and has no
side effects, after the first call both guards hold `None`, the child
process is killed at most once and the stdin pipe is closed at most once
across the two calls, and `stop` is total (it returns no error by
type). -/
theorem stop_idempotent :
    ∀ st : SessionState,
      (stop (stop st).1).1 = (stop st).1 ∧
      (stop (stop st).1).2 = [] ∧
      (stop st).1.child = none ∧
      (stop st).1.stdin_writer = none ∧
      ((stop st).2 ++ (stop (stop st).1).2).count StopEffect.killChild ≤ 1 ∧
      ((stop st).2 ++ (stop (stop st).1).2).count StopEffect.closeStdin ≤ 1 := by
  intro st
  obtain ⟨c, w, wr, em⟩ := st
  cases c <;> cases w <;> simp [stop]

/-- C10: every successful `send_message` additionally publishes exactly
one event of type `message_sent` (all other fields default) to the
event sink; a failing `send_message` publishes nothing. -/
theorem send_message_emits_sent_event :
    ∀ st m,
      (¬streamClosed st →
        (send_message st m).2.emitted = st.emitted ++ [messageSentEvent] ∧
        messageSentEvent.event_type = "message_sent".toList) ∧
      (streamClosed st → (send_message st m).2.emitted = st.emitted) := by
  intro st m
  obtain ⟨c, w, wr, em⟩ := st
  cases w with
  | none =>
    refine ⟨?_, ?_⟩ <;> simp [send_message, streamClosed]
  | some p =>
    obtain ⟨pok⟩ := p
    cases pok <;> refine ⟨?_, ?_⟩ <;>
      simp [send_message, streamClosed, messageSentEvent]

/-- Witness for C10 at a concrete input: an open session emits the
`message_sent` event; the same session after the pipe broke emits
nothing. -/
theorem send_message_emits_sent_event_witness :
    ((send_message ⟨some (), some ⟨true⟩, [], []⟩ "hi".toList).2.emitted =
        [] ++ [messageSentEvent] ∧
      messageSentEvent.event_type = "message_sent".toList) ∧
    (send_message ⟨some (), some ⟨false⟩, [], []⟩ "hi".toList).2.emitted = [] :=
  ⟨(send_message_emits_sent_event ⟨some (), some ⟨true⟩, [], []⟩ "hi".toList).1
      (by decide),
   (send_message_emits_sent_event ⟨some (), some ⟨false⟩, [], []⟩ "hi".toList).2
      (Or.inr ⟨⟨false⟩, rfl, rfl⟩)⟩

/-- A JSON value as `serde_json::Value`, with numbers restricted to the
integer values the protocol and the claims exercise (`f64`-only payloads
such as fractional costs are outside this model). -/
inductive Json where
  | null
  | bool (b : Bool)
  | num (n : Int)
  | str (s : List Char)
  | arr (xs : List Json)
  | obj (fields : List (List Char × Json))

/-- Model of `Value::get(key)` on an object: the value under the key,
`None` on non-objects or missing keys. -/
def Json.get : Json → List Char → Option Json
  | .obj fields, key => fields.lookup key
  | _, _ => none

/-- Model of `Value::as_str`. -/
def Json.asStr : Json → Option (List Char)
  | .str s => some s
  | _ => none

/-- Model of `Value::as_u64` on integer-valued numbers: the value when
it is a non-negative integer below `2 ^ 64`. -/
def Json.asU64 : Json → Option Nat
  | .num n => if 0 ≤ n ∧ n < 2 ^ 64 then some n.toNat else none
  | _ => none

/-- Model of `Value::as_f64` on integer-valued numbers (every `u64`/`i64`
JSON integer is representable; the claims only exercise presence and
integer payloads). -/
def Json.asF64 : Json → Option Int
  | .num n => some n
  | _ => none

/-- The discriminator the translator reads (claude.rs:440-443):
`json.get("type").and_then(as_str).unwrap_or("unknown")`. -/
def eventTypeOf (json : Json) : List Char :=
  ((json.get "type".toList).bind Json.asStr).getD "unknown".toList

/-- The fourteen discriminators `parse_service_event` recognizes
(claude.rs:447-678). -/
def knownEventTypes : List (List Char) :=
  ["service_ready".toList, "ready".toList, "system_init".toList,
   "assistant".toList, "tool_use".toList, "tool_result".toList,
   "usage".toList, "result".toList, "error".toList, "interrupted".toList,
   "model_changed".toList, "agent_screenshot".toList, "stopped".toList,
   "tool_progress".toList]

/-- Model of `parse_service_event` (claude.rs:439-684): translate one
parsed worker line into the canonical event, or `None` for an
unrecognized discriminator (claude.rs:679-682) and for an `assistant`
event with empty content (claude.rs:490-492).  The `as u32` casts on
`numTurns`, `step` and `total` are the `% 2 ^ 32` truncations. -/
def parse_service_event (json : Json) (raw_line : List Char) : Option ClaudeEvent :=
  if eventTypeOf json = "service_ready".toList then
    some { ClaudeEvent.default with
            event_type := "service_ready".toList
            content := "Claude SDK service is ready".toList
            raw_json := some raw_line }
  else if eventTypeOf json = "ready".toList then
    some { ClaudeEvent.default with
            event_type := "ready".toList
            model := (json.get "model".toList).bind Json.asStr
            raw_json := some raw_line }
  else if eventTypeOf json = "system_init".toList then
    some { ClaudeEvent.default with
            event_type := "system_init".toList
            session_id := (json.get "sessionId".toList).bind Json.asStr
            model := (json.get "model".toList).bind Json.asStr
            raw_json := some raw_line }
  else if eventTypeOf json = "assistant".toList then
    if ((json.get "content".toList).bind Json.asStr).getD [] = [] then none
    else
      some { ClaudeEvent.default with
              event_type := "assistant".toList
              content := ((json.get "content".toList).bind Json.asStr).getD []
              raw_json := some raw_line }
  else if eventTypeOf json = "tool_use".toList then
    some { ClaudeEvent.default with
            event_type := "tool_use".toList
            tool_name := (json.get "toolName".toList).bind Json.asStr
            tool_input := (json.get "toolInput".toList).bind Json.asStr
            tool_id := (json.get "toolId".toList).bind Json.asStr
            raw_json := some raw_line }
  else if eventTypeOf json = "tool_result".toList then
    some { ClaudeEvent.default with
            event_type := "tool_result".toList
            content := ((json.get "result".toList).bind Json.asStr).getD []
            tool_id := (json.get "toolId".toList).bind Json.asStr
            raw_json := some raw_line }
  else if eventTypeOf json = "usage".toList then
    some { ClaudeEvent.default with
            event_type := "usage".toList
            input_tokens := (json.get "inputTokens".toList).bind Json.asU64
            output_tokens := (json.get "outputTokens".toList).bind Json.asU64
            cache_read_tokens := (json.get "cacheReadTokens".toList).bind Json.asU64
            cache_creation_tokens := (json.get "cacheCreationTokens".toList).bind Json.asU64
            raw_json := some raw_line }
  else if eventTypeOf json = "result".toList then
    some { ClaudeEvent.default with
            event_type := "result".toList
            content := ((json.get "content".toList).bind Json.asStr).getD []
            input_tokens :=
              ((json.get "usage".toList).bind (fun u => u.get "inputTokens".toList)).bind
                Json.asU64
            output_tokens :=
              ((json.get "usage".toList).bind (fun u => u.get "outputTokens".toList)).bind
                Json.asU64
            cache_read_tokens :=
              ((json.get "usage".toList).bind (fun u => u.get "cacheReadTokens".toList)).bind
                Json.asU64
            cache_creation_tokens :=
              ((json.get "usage".toList).bind
                (fun u => u.get "cacheCreationTokens".toList)).bind Json.asU64
            cost := (json.get "cost".toList).bind Json.asF64
            duration := (json.get "duration".toList).bind Json.asF64
            num_turns :=
              ((json.get "numTurns".toList).bind Json.asU64).map (fun n => n % 2 ^ 32)
            result_subtype := (json.get "subtype".toList).bind Json.asStr
            raw_json := some raw_line }
  else if eventTypeOf json = "error".toList then
    some { ClaudeEvent.default with
            event_type := "error".toList
            content :=
              ((json.get "message".toList).bind Json.asStr).getD "Unknown error".toList
            is_error := true
            raw_json := some raw_line }
  else if eventTypeOf json = "interrupted".toList then
    some { ClaudeEvent.default with
            event_type := "interrupted".toList
            content := "Query interrupted".toList
            raw_json := some raw_line }
  else if eventTypeOf json = "model_changed".toList then
    some { ClaudeEvent.default with
            event_type := "model_changed".toList
            model := (json.get "model".toList).bind Json.asStr
            raw_json := some raw_line }
  else if eventTypeOf json = "agent_screenshot".toList then
    some { ClaudeEvent.default with
            event_type := "agent_screenshot".toList
            content := ((json.get "filepath".toList).bind Json.asStr).getD []
            tool_input := some (((json.get "filepath".toList).bind Json.asStr).getD [])
            raw_json := some raw_line }
  else if eventTypeOf json = "stopped".toList then
    some { ClaudeEvent.default with
            event_type := "stopped".toList
            content := "Service stopped".toList
            raw_json := some raw_line }
  else if eventTypeOf json = "tool_progress".toList then
    some { ClaudeEvent.default with
            event_type := "tool_progress".toList
            tool_name := (json.get "toolName".toList).bind Json.asStr
            progress_step :=
              ((json.get "step".toList).bind Json.asU64).map (fun s => s % 2 ^ 32)
            progress_total :=
              ((json.get "total".toList).bind Json.asU64).map (fun t => t % 2 ^ 32)
            progress_message := (json.get "message".toList).bind Json.asStr
            raw_json := some raw_line }
  else none

/-- Rust's `str::trim`: whitespace stripped from both ends. -/
def trimChars (l : List Char) : List Char :=
  ((l.dropWhile Char.isWhitespace).reverse.dropWhile Char.isWhitespace).reverse

/-- One iteration of the stdout reader loop (claude.rs:227-251).  The
outcome of `serde_json::from_str` for the line is supplied as `parsed`
(`none` = the line is not valid JSON, the `else` arm that only logs).
Returns the events emitted for that line; the loop itself never fails. -/
def processStdoutLine (line : List Char) (parsed : Option Json) : List ClaudeEvent :=
  if (trimChars line).isEmpty then []
  else
    match parsed with
    | some json =>
      match parse_service_event json line with
      | some ev => [ev]
      | none => []
    | none => []

/-- The stdout reader over a whole stream of lines paired with their
parse outcomes; total, so no line can fail the loop. -/
def processStdout : List (List Char × Option Json) → List ClaudeEvent
  | [] => []
  | (line, parsed) :: rest => processStdoutLine line parsed ++ processStdout rest

/-- Rust's `str::contains` on character lists. -/
def strContains (hay needle : List Char) : Bool := decide (needle <:+: hay)

/-- ASCII lowercasing, modelling `str::to_lowercase` on the alphabet the
keyword filter inspects. -/
def asciiLower (c : Char) : Char :=
  if 'A' ≤ c ∧ c ≤ 'Z' then Char.ofNat (c.toNat + 32) else c

/-- Lowercase a whole line. -/
def lowercase (l : List Char) : List Char := l.map asciiLower

/-- The keyword heuristic of the stderr reader (claude.rs:265-266):
the lowercased line contains `error`, `failed` or `exception`. -/
def stderrKeywordHit (line : List Char) : Bool :=
  strContains (lowercase line) "error".toList
    || strContains (lowercase line) "failed".toList
    || strContains (lowercase line) "exception".toList

/-- One iteration of the stderr reader loop (claude.rs:260-280): a
non-blank line is surfaced as an error event exactly when the keyword
heuristic matches; everything else is only logged. -/
def processStderrLine (line : List Char) : Option ClaudeEvent :=
  if (trimChars line).isEmpty then none
  else if stderrKeywordHit line then
    some { ClaudeEvent.default with
            event_type := "error".toList
            content := line
            is_error := true }
  else none

theorem unknown_event_type_parses_none {json : Json}
    (h : eventTypeOf json ∉ knownEventTypes) (line : List Char) :
    parse_service_event json line = none := by
  unfold parse_service_event
  rw [if_neg (fun he => h (by rw [he]; decide)),
      if_neg (fun he => h (by rw [he]; decide)),
      if_neg (fun he => h (by rw [he]; decide)),
      if_neg (fun he => h (by rw [he]; decide)),
      if_neg (fun he => h (by rw [he]; decide)),
      if_neg (fun he => h (by rw [he]; decide)),
      if_neg (fun he => h (by rw [he]; decide)),
      if_neg (fun he => h (by rw [he]; decide)),
      if_neg (fun he => h (by rw [he]; decide)),
      if_neg (fun he => h (by rw [he]; decide)),
      if_neg (fun he => h (by rw [he]; decide)),
      if_neg (fun he => h (by rw [he]; decide)),
      if_neg (fun he => h (by rw [he]; decide)),
      if_neg (fun he => h (by rw [he]; decide))]

/-- C4: a primary-output line that fails to parse as JSON produces no
event and the reading loop continues with the rest of the stream; a line
that parses but carries an unrecognized `type` discriminator (including
a missing or non-string `type`, which reads as `unknown`) translates to
`None`, produces no event, and the loop likewise continues.  Both paths
are ordinary values of the total reader function — never a hard
failure. -/
theorem bad_lines_dropped_loop_continues :
    (∀ line rest, processStdout ((line, none) :: rest) = processStdout rest) ∧
    (∀ json line rest, eventTypeOf json ∉ knownEventTypes →
      parse_service_event json line = none ∧
      processStdout ((line, some json) :: rest) = processStdout rest) := by
  constructor
  · intro line rest
    simp [processStdout, processStdoutLine]
  · intro json line rest h
    have hnone := unknown_event_type_parses_none h line
    refine ⟨hnone, ?_⟩
    simp [processStdout, processStdoutLine, hnone]

/-- Witness for C4 at a concrete input: a line whose JSON carries the
unrecognized discriminator `bogus` is dropped and the loop result equals
that of the remaining (empty) stream. -/
theorem bad_lines_dropped_witness :
    parse_service_event (.obj [("type".toList, .str "bogus".toList)]) "x".toList
        = none ∧
    processStdout
        [("x".toList, some (.obj [("type".toList, .str "bogus".toList)]))] =
      processStdout [] :=
  bad_lines_dropped_loop_continues.2 (.obj [("type".toList, .str "bogus".toList)])
    "x".toList [] (by decide)

theorem all_whitespace_of_trim_nil {l : List Char} (h : trimChars l = []) :
    ∀ c ∈ l, c.isWhitespace := by
  unfold trimChars at h
  rw [List.reverse_eq_nil_iff, List.dropWhile_eq_nil_iff] at h
  intro c hc
  rw [← List.takeWhile_append_dropWhile (p := Char.isWhitespace) (l := l)] at hc
  rcases List.mem_append.mp hc with hc | hc
  · exact List.mem_takeWhile_imp hc
  · exact h c (List.mem_reverse.mpr hc)

theorem keyword_implies_e_mem {line : List Char} (h : stderrKeywordHit line = true) :
    'e' ∈ lowercase line := by
  unfold stderrKeywordHit strContains at h
  simp only [Bool.or_eq_true, decide_eq_true_eq] at h
  rcases h with (h | h) | h
  · exact h.sublist.subset (by decide)
  · exact h.sublist.subset (by decide)
  · exact h.sublist.subset (by decide)

theorem not_whitespace_of_asciiLower_e {c : Char} (h : asciiLower c = 'e') :
    c.isWhitespace = false := by
  by_contra hw
  rw [Bool.not_eq_false] at hw
  simp only [Char.isWhitespace, Bool.or_eq_true, decide_eq_true_eq] at hw
  rcases hw with ((h1 | h1) | h1) | h1 <;> subst h1 <;> exact absurd h (by decide)

/-- C7: a diagnostic-output line is surfaced as an event — of type
`error` with `isError = true` and the line as content — if and only if
the lowercased line contains `error`, `failed` or `exception`; every
other line (blank or not) produces no event.  The blank-line guard of
the loop is redundant for this characterization because a
whitespace-only line can never contain a keyword. -/
theorem stderr_keyword_filter :
    ∀ line : List Char,
      processStderrLine line =
        (if stderrKeywordHit line then
          some { ClaudeEvent.default with
                  event_type := "error".toList
                  content := line
                  is_error := true }
        else none) := by
  intro line
  unfold processStderrLine
  by_cases htrim : (trimChars line).isEmpty = true
  · rw [if_pos htrim]
    by_cases hkw : stderrKeywordHit line = true
    · exfalso
      have he := keyword_implies_e_mem hkw
      obtain ⟨c, hc, hlc⟩ := List.mem_map.mp he
      have hwc := all_whitespace_of_trim_nil (by rwa [List.isEmpty_iff] at htrim) c hc
      rw [not_whitespace_of_asciiLower_e hlc] at hwc
      exact Bool.noConfusion hwc
    · rw [if_neg hkw]
  · rw [if_neg htrim]

/-- The parsed JSON value of the scenario-C worker line
`{"type":"result","content":"done","usage":{"inputTokens":120,"outputTokens":45},"subtype":"end_turn"}`. -/
def resultLineJson : Json :=
  .obj [("type".toList, .str "result".toList),
        ("content".toList, .str "done".toList),
        ("usage".toList, .obj [("inputTokens".toList, .num 120),
                               ("outputTokens".toList, .num 45)]),
        ("subtype".toList, .str "end_turn".toList)]

/-- The raw text of the scenario-C worker line. -/
def resultLineRaw : List Char :=
  ("\x7b\"type\":\"result\",\"content\":\"done\",\"usage\":"
    ++ "\x7b\"inputTokens\":120,\"outputTokens\":45\x7d,\"subtype\":\"end_turn\"\x7d").toList

/-- C8: translating the scenario-C worker line yields the `result` event
with content `done`, inputTokens 120, outputTokens 45 and resultSubtype
`end_turn`; every token, cost, duration and turn-count field absent from
the input stays `none` in the event (the record overrides only the
fields present, everything else is `ClaudeEvent.default`). -/
theorem result_event_translation :
    parse_service_event resultLineJson resultLineRaw =
      some { ClaudeEvent.default with
              event_type := "result".toList
              content := "done".toList
              input_tokens := some 120
              output_tokens := some 45
              result_subtype := some "end_turn".toList
              raw_json := some resultLineRaw } := by
  decide

end Nocur
